import Mathlib

/-!
# Verification of the `deep-qso` data-loading pipeline

Shallow embedding of `src/data/dataloader.py` (class `Dataloader`) and proofs
about it.  Tables are modelled as lists of rows; pandas/numpy operations used
by the source are embedded with their library semantics:

* `DataFrame.query('MJD < @cutoff', inplace=True)` — list filter;
* `Series.nunique()` — length of the deduplicated value list;
* `Series.unique()` — deduplication keeping first-encounter order;
* `pivot_table(...)` with the default `aggfunc='mean'` — grouping cells are
  the arithmetic mean of the matching values, `NaN` (here: `Option.none`)
  when no row matches; the row index comes out sorted, and the result's
  columns are sorted because `pivot_table` ends with `sort_index(axis=1)`
  (and, for `dropna=False`, reindexes each multi-axis by the cartesian
  product of its level values);
* `df[df.isnull()] = -9999.0` — `Option.getD (-9999)`;
* `np.ndarray.reshape`/`swapaxes` — index arithmetic on the row-major layout;
* `DataFrame.sort_values(by=[...])` — stable sort on the key tuple;
* `Series.shift(+1)` — pairing each element with its predecessor;
* assertion failures and raised exceptions — `Except.error`.

Numeric values are modelled by `ℚ` (the source data is finite decimal text;
none of the verified claims concerns floating-point rounding).
-/

namespace DeepQSO

/-! ## Generic list helpers (insertion sort, indexed access) -/

/-- Insertion of `x` into `l` before the first element `y` with `¬ le x y`.
Keeping `x` in front of elements it compares `le`-equal to makes the derived
sort stable, matching `np.lexsort` / pandas' stable multi-column sort. -/
def insertLe (le : α → α → Bool) (x : α) : List α → List α
  | [] => [x]
  | y :: ys => if le x y then x :: y :: ys else y :: insertLe le x ys

/-- Stable insertion sort by a boolean comparison. -/
def isortLe (le : α → α → Bool) : List α → List α
  | [] => []
  | x :: xs => insertLe le x (isortLe le xs)

theorem perm_insertLe (le : α → α → Bool) (x : α) :
    ∀ l : List α, List.Perm (insertLe le x l) (x :: l) := by
  intro l
  induction l with
  | nil => simp [insertLe]
  | cons y ys ih =>
    by_cases h : le x y = true
    · simp [insertLe, h]
    · simp only [insertLe, h, if_false]
      exact (ih.cons y).trans (List.Perm.swap x y ys)

theorem perm_isortLe (le : α → α → Bool) : ∀ l : List α, List.Perm (isortLe le l) l := by
  intro l
  induction l with
  | nil => simp [isortLe]
  | cons x xs ih => exact (perm_insertLe le x (isortLe le xs)).trans (ih.cons x)

theorem length_isortLe (le : α → α → Bool) (l : List α) :
    (isortLe le l).length = l.length :=
  (perm_isortLe le l).length_eq

theorem mem_isortLe (le : α → α → Bool) (l : List α) (a : α) :
    a ∈ isortLe le l ↔ a ∈ l :=
  (perm_isortLe le l).mem_iff

/-- Reading with `getD` through a `map`, for an in-range index. -/
theorem getD_map_lt {α β : Type _} (f : α → β) (d : β) (d' : α) :
    ∀ (l : List α) (i : ℕ), i < l.length → (l.map f).getD i d = f (l.getD i d')
  | [], i, h => absurd h (by simp)
  | _ :: _, 0, _ => rfl
  | _ :: l, i + 1, h => getD_map_lt f d d' l i (by simpa using h)

/-- Reading with `getD` into `List.range`, for an in-range index. -/
theorem getD_range_lt (d : ℕ) : ∀ (n i : ℕ), i < n → (List.range n).getD i d = i := by
  intro n
  induction n with
  | zero => intro i h; omega
  | succ m ih =>
    intro i h
    rw [List.range_succ]
    rcases Nat.lt_or_ge i m with h' | h'
    · rw [List.getD_append _ _ _ _ (by simpa using h')]
      exact ih i h'
    · have hi : i = m := by omega
      subst hi
      rw [List.getD_append_right _ _ _ _ (by simp)]
      simp

/-- Indexing into a concatenation of constant-length blocks:
element `i * L + j` of `cs.flatMap g` is element `j` of block `i`. -/
theorem getD_flatMap_const_length {α β : Type _} (g : α → List β) (L : ℕ)
    (hg : ∀ x, (g x).length = L) (d : β) (d' : α) :
    ∀ (cs : List α) (i j : ℕ), i < cs.length → j < L →
      (cs.flatMap g).getD (i * L + j) d = (g (cs.getD i d')).getD j d := by
  intro cs
  induction cs with
  | nil => intro i j hi _; exact absurd hi (by simp)
  | cons c cs ih =>
    intro i j hi hj
    match i with
    | 0 =>
      rw [List.flatMap_cons]
      simpa using List.getD_append _ _ _ _ (by rw [hg c]; simpa using hj)
    | i + 1 =>
      rw [List.flatMap_cons]
      have hidx : (i + 1) * L + j = (g c).length + (i * L + j) := by
        rw [hg c, Nat.succ_mul]; omega
      rw [hidx, List.getD_append_right _ _ _ _ (by omega)]
      have : (g c).length + (i * L + j) - (g c).length = i * L + j := by omega
      rw [this]
      exact ih i j (by simpa using hi) hj

/-- A `flatMap` over `List.range l.length` of a positional access is `flatMap`
over the list itself. -/
theorem flatMap_range_getD {β : Type _} (d : α) (F : α → List β) :
    ∀ l : List α, (List.range l.length).flatMap (fun i => F (l.getD i d)) = l.flatMap F := by
  intro l
  induction l with
  | nil => simp
  | cons a l ih =>
    rw [List.length_cons, List.range_succ_eq_map, List.flatMap_cons, List.flatMap_map]
    simp only [List.getD_cons_zero, List.getD_cons_succ]
    rw [List.flatMap_cons, ← ih]

theorem perm_flatMap_of_perm {α β : Type _} (f : α → List β) {l₁ l₂ : List α}
    (h : List.Perm l₁ l₂) : List.Perm (l₁.flatMap f) (l₂.flatMap f) := by
  induction h with
  | nil => rfl
  | cons x _ ih => simpa using ih.append_left (f x)
  | swap x y l =>
    simp only [List.flatMap_cons, ← List.append_assoc]
    exact (List.perm_append_comm).append_right _
  | trans _ _ ih₁ ih₂ => exact ih₁.trans ih₂

/-- Helper for `uniqueFirst`: skip values already seen. -/
def uniqueFirstAux (seen : List ℚ) : List ℚ → List ℚ
  | [] => []
  | x :: xs =>
    if seen.contains x then uniqueFirstAux seen xs
    else x :: uniqueFirstAux (x :: seen) xs

/-- Embeds `pandas.Series.unique()`: deduplication keeping first-encounter order. -/
def uniqueFirst (l : List ℚ) : List ℚ := uniqueFirstAux [] l

/-- Boolean string comparison (Python's lexicographic `<=` on code points).
`String.lt` is by definition the lexicographic order on the character
lists, compared here directly. -/
def strLe (a b : String) : Bool := !(decide (b.data < a.data))

/-- Embeds `np.sort` on distinct naturals: deduplicate, then sort ascending. -/
def uniqSorted (l : List ℕ) : List ℕ := isortLe (fun a b => decide (a ≤ b)) l.dedup

/-- Sort a list of strings lexicographically (`sorted` in Python,
`sort_index` in pandas for string-labelled axes). -/
def sortStrings (l : List String) : List String := isortLe strLe l

/-! ## The `Dataloader` column vocabulary (`__init__`, lines 19–44)

`self.NUM_FILTERS = 5` with the fixed filter alphabet `'ugriz'`;
`self.attributes` is one of two fixed lists, and
`self.filtered_attributes = [f + '_' + a for a, f in product(self.attributes, 'ugriz')]`. -/

/-- The fixed filter alphabet, in the source's iteration order `'ugriz'`. -/
def filterNames : List String := ["u", "g", "r", "i", "z"]

/-- Filter codes are `Fin 5`; `filterName` recovers the letter. -/
def filterName (f : Fin 5) : String := filterNames.getD f ""

/-- The list `self.attributes` for the default (`lightcurve_only=False`) configuration. -/
def attributesFull : List String :=
  ["psf_fwhm", "x", "y", "apFlux", "apFluxErr", "apMag", "apMagErr",
   "trace", "e1", "e2", "e", "phi", "d_time"]

/-- The list `self.attributes` for `lightcurve_only=True`. -/
def attributesLC : List String := ["apMag", "apMagErr", "d_time"]

/-- The list `self.filtered_attributes`: the `(attribute × filter)` product, attribute-major
with the filter letter iterated in `'ugriz'` order, named `filter_attribute`. -/
def filtered_attributes (attrs : List String) : List String :=
  attrs.flatMap (fun a => filterNames.map (fun f => f ++ "_" ++ a))

/-- The list `self.timed_filtered_attributes` (built inside `make_data_array`):
the `(flat-list × time)` product, flat-list-major, named `time-filter_attribute`. -/
def timed_filtered_attributes (attrs : List String) (T : ℕ) : List String :=
  (filtered_attributes attrs).flatMap
    (fun fa => (List.range T).map (fun t => toString t ++ "-" ++ fa))

/-! ## Long-format rows fed to `make_data_array`

After `set_balance`/`set_additional_columns`, `make_data_array` selects the
columns `self.attributes + ['time_index', 'objectId', 'filter']`
(line 107); a long row is one observation with exactly those fields.
`attrs` holds the attribute values positionally, aligned with
`self.attributes`. -/

structure LongRow where
  objectId : ℕ
  time_index : ℕ
  filter : Fin 5
  attrs : List ℚ
deriving DecidableEq

/-- A channel of the per-filter-column layout: an `(attribute index, filter)`
pair, whose pandas column name is `filter_attribute`. -/
abbrev Chan := ℕ × Fin 5

/-- The pandas column name `f_a` of a channel. -/
def chanName (attrs : List String) (c : Chan) : String :=
  filterName c.2 ++ "_" ++ attrs.getD c.1 ""

/-- All `(attribute index, filter)` pairs in the declared order
(attribute-major, filters in `'ugriz'` order), mirroring `filtered_attributes`. -/
def allPairs (attrs : List String) : List Chan :=
  (List.range attrs.length).flatMap (fun a => (List.finRange 5).map (fun f => (a, f)))

/-- The channels in the order the first pivot's columns actually take:
`pivot_table` sorts the result columns (`sort_index(axis=1)`), so the
`filter_attribute` columns appear sorted by name. -/
def channelPairs (attrs : List String) : List Chan :=
  isortLe (fun c d => strLe (chanName attrs c) (chanName attrs d)) (allPairs attrs)

/-- The second pivot's column keys, in actual column order: the (sorted)
`filter_attribute` level is the slow axis and the (ascending) `time_index`
level the fast axis, because `pivot_table` sorts the column MultiIndex. -/
def pivot2_pairs (attrs : List String) (times : List ℕ) : List (Chan × ℕ) :=
  (channelPairs attrs).flatMap (fun c => times.map (fun t => (c, t)))

/-- The second pivot's collapsed column names
(`src.columns.map('{0[1]}-{0[0]}'.format)`, line 176), in column order. -/
def pivot2_columns (attrs : List String) (times : List ℕ) : List String :=
  (pivot2_pairs attrs times).map (fun p => toString p.2 ++ "-" ++ chanName attrs p.1)

/-- Distinct object identifiers in ascending order: the row index produced by
`pivot_table(index=['objectId'], ...)` (groupby sorts its keys). -/
def objsOf (src : List LongRow) : List ℕ := uniqSorted (src.map (·.objectId))

/-- Distinct time indices in ascending order: the unstacked `time_index`
column level of the pivots. -/
def timesOf (src : List LongRow) : List ℕ := uniqSorted (src.map (·.time_index))

/-- Observed filter letters, sorted: the unstacked `filter` column level of
the first pivot (and the categories of `pd.get_dummies`). -/
def obsFiltersOf (src : List LongRow) : List String :=
  sortStrings ((src.map (fun r => filterName r.filter)).dedup)

/-- The rows contributing to one pivot cell of the per-filter-column layout:
those matching the cell's `(objectId, time_index, filter)` key. -/
def matchRows (src : List LongRow) (o t : ℕ) (f : Fin 5) : List LongRow :=
  src.filter (fun r => r.objectId == o && r.time_index == t && r.filter == f)

/-- The attribute values aggregated into the pivot cell of channel `c`
at `(objectId o, time_index t)`. -/
def chanVals (src : List LongRow) (o t : ℕ) (c : Chan) : List ℚ :=
  (matchRows src o t c.2).map (fun r => r.attrs.getD c.1 0)

/-- Embeds `pivot_table`'s default aggregation (`aggfunc='mean'`): the arithmetic
mean of the matching values, `NaN` (`none`) when no row matches. -/
def pivotCell (vals : List ℚ) : Option ℚ :=
  if vals.isEmpty then none else some (vals.sum / vals.length)

/-- Embeds `src[src.isnull()] = -9999.0` (line 185): null cells become the sentinel. -/
def fillSentinel (x : Option ℚ) : ℚ := x.getD (-9999)

/-- One-hot layout: `ohfiltered_attributes = self.attributes[:] + ['u','g','r','i','z']`. -/
def ohNames (attrs : List String) : List String := attrs ++ filterNames

/-- One-hot layout value columns in actual (sorted) pivot column order,
as indices into `ohNames`. -/
def ohChannels (attrs : List String) : List ℕ :=
  isortLe (fun i j => strLe ((ohNames attrs).getD i "") ((ohNames attrs).getD j ""))
    (List.range (attrs.length + 5))

/-- The value a long row contributes to one-hot value column `k`: the
attribute value for an attribute column, the 0/1 indicator produced by
`pd.get_dummies` for a filter column. -/
def ohVal (attrs : List String) (r : LongRow) (k : ℕ) : ℚ :=
  if k < attrs.length then r.attrs.getD k 0
  else if filterName r.filter = (ohNames attrs).getD k "" then 1 else 0

/-- Rows contributing to a one-hot pivot cell: key is `(objectId, time_index)`. -/
def matchRowsOT (src : List LongRow) (o t : ℕ) : List LongRow :=
  src.filter (fun r => r.objectId == o && r.time_index == t)

/-- Values aggregated into the one-hot pivot cell of column `k` at `(o, t)`. -/
def ohChanVals (attrs : List String) (src : List LongRow) (o t k : ℕ) : List ℚ :=
  (matchRowsOT src o t).map (fun r => ohVal attrs r k)

/-- Embeds `src.values.reshape(N, C, T).swapaxes(1, 2)` (lines 191–198): a row-major
reshape of each wide per-object row into a `C × T` matrix followed by a
transpose; cell `(t, c)` of object `o` is entry `c*T + t` of wide row `o`. -/
def reshapeSwap (T C : ℕ) (rows : List (List ℚ)) : List (List (List ℚ)) :=
  rows.map (fun r =>
    (List.range T).map (fun t => (List.range C).map (fun c => r.getD (c * T + t) 0)))

/-- Embeds `Dataloader.make_data_array` (lines 102–201).  Parameters mirror the
instance state: `NUM_POSITIVES`, `NUM_TIMES`, `self.attributes`,
`self.onehot_filters`.  Assertion failures (and the exception `np.reshape`
would raise on a size mismatch) are `Except.error`.  In the
per-filter-column branch the two `pivot_table` calls are composed into one
cell computation: the first pivot has exactly one row per
`(objectId, time_index)` pair (cartesian reindex, `dropna=False`), so the
second pivot's mean over that single cell is the first pivot's cell, i.e.
the mean over the long rows matching `(objectId, time_index, filter)`. -/
def make_data_array (NUM_POSITIVES NUM_TIMES : ℕ) (attrs : List String)
    (onehot_filters : Bool) (src : List LongRow) (truth_value : ℚ) :
    Except String (List (List (List ℚ)) × List ℚ) :=
  -- `assert src.shape[0] == self.NUM_POSITIVES*self.NUM_TIMES` (line 114)
  if src.length ≠ NUM_POSITIVES * NUM_TIMES then .error "row count assertion" else
  if onehot_filters then
    -- `pd.get_dummies(..., columns=['filter'])` appends one indicator column
    -- per observed filter; `assert shape == (N*T, A + 5 + 2)` (lines 123–125)
    if (obsFiltersOf src).length ≠ 5 then .error "get_dummies shape assertion" else
    -- single pivot, index `objectId`, columns `time_index`;
    -- `assert shape == (N, (A+5)*T)` (lines 139–141)
    if ¬ ((objsOf src).length = NUM_POSITIVES ∧
          (attrs.length + 5) * (timesOf src).length =
            (attrs.length + 5) * NUM_TIMES) then
      .error "onehot pivot shape assertion" else
    if (objsOf src).length * ((attrs.length + 5) * (timesOf src).length) ≠
        NUM_POSITIVES * ((attrs.length + 5) * NUM_TIMES) then
      .error "reshape size" else
    .ok (reshapeSwap NUM_TIMES (attrs.length + 5)
      ((objsOf src).map (fun o =>
        (ohChannels attrs).flatMap (fun k =>
          (timesOf src).map (fun t =>
            fillSentinel (pivotCell (ohChanVals attrs src o t k)))))),
      List.replicate NUM_POSITIVES truth_value)
  else
    -- first pivot, index `(objectId, time_index)` (cartesian-reindexed),
    -- columns `filter`; `assert shape == (N*T, A*5)` (lines 151–153)
    if ¬ ((objsOf src).length * (timesOf src).length = NUM_POSITIVES * NUM_TIMES ∧
          attrs.length * (obsFiltersOf src).length = attrs.length * 5) then
      .error "first pivot shape assertion" else
    -- (the `assert shape == (N*T, A*5 + 2)` after `reset_index`, line 157,
    -- is implied by the previous assertion and adds nothing here)
    -- `assert np.array_equal(np.setdiff1d(src.columns.values,
    --   self.filtered_attributes), ['objectId','time_index'])` (line 160)
    if sortStrings (((["objectId", "time_index"] ++
          attrs.flatMap (fun a => (obsFiltersOf src).map (fun f => f ++ "_" ++ a))).filter
            (fun c => !((filtered_attributes attrs).contains c))).dedup)
        ≠ ["objectId", "time_index"] then .error "setdiff assertion" else
    -- second pivot, index `objectId`, columns `time_index`;
    -- `assert len(timed_filtered_attributes) == 5*A*T` (line 179) always holds;
    -- `assert shape == (N, A*5*T)` (lines 181–183)
    if ¬ ((objsOf src).length = NUM_POSITIVES ∧
          (5 * attrs.length) * (timesOf src).length =
            attrs.length * 5 * NUM_TIMES) then
      .error "second pivot shape assertion" else
    if (objsOf src).length * ((5 * attrs.length) * (timesOf src).length) ≠
        NUM_POSITIVES * ((5 * attrs.length) * NUM_TIMES) then
      .error "reshape size" else
    .ok (reshapeSwap NUM_TIMES (5 * attrs.length)
      ((objsOf src).map (fun o =>
        (pivot2_pairs attrs (timesOf src)).map
          (fun p => fillSentinel (pivotCell (chanVals src o p.2 p.1))))),
      List.replicate NUM_POSITIVES truth_value)

/-! ## Raw tables (`set_balance`, `set_additional_columns`)

A raw table is a list of rows; a row is an ordered association list from
column names to numeric values, mirroring a DataFrame's ordered columns.
The `filter` column (a string `'u'..'z'` in the data) is stored as its rank
in the alphabetically sorted letter list, so that numeric comparison of the
stored value coincides with pandas' string comparison when sorting. -/

abbrev Row := List (String × ℚ)

abbrev Table := List Row

/-- First-match association lookup (a dict / labelled-column access). -/
def alookup {κ ν : Type _} [DecidableEq κ] (c : κ) : List (κ × ν) → Option ν
  | [] => none
  | p :: r => if p.1 = c then some p.2 else alookup c r

/-- Read a cell (`df[col]` for one row). -/
def cellD (r : Row) (c : String) : ℚ := (alookup c r).getD 0

/-- Column assignment `df[col] = v` on one row: overwrite the existing
column in place, or append a new column at the end. -/
def assignCol (r : Row) (c : String) (v : ℚ) : Row :=
  if (alookup c r).isSome then r.map (fun p => if p.1 = c then (c, v) else p)
  else r ++ [(c, v)]

/-- Embeds `Series.nunique()` for a column. -/
def nuniqueCol (t : Table) (c : String) : ℕ := ((t.map (fun r => cellD r c)).dedup).length

/-- DataFrame `shape` as `(row count, column count)`. -/
def shapeOf (t : Table) : ℕ × ℕ := (t.length, (t.headD []).length)

/-- The test `MJD < observation_cutoff` where `none` is the default `np.inf`. -/
def ltCutoff (m : ℚ) : Option ℚ → Bool
  | none => true
  | some c => decide (m < c)

/-- Embeds `Dataloader.set_balance` (lines 46–66).  `NUM_POSITIVES` is the instance
field computed in `__init__`; the returned `ℕ` is the `self.NUM_TIMES` the
method sets.  Both `assert` statements are `Except.error`. -/
def set_balance (NUM_POSITIVES : ℕ) (lens nonlens : Table)
    (observation_cutoff : Option ℚ) : Except String (Table × Table × ℕ) :=
  -- `nonlens.query('MJD < @observation_cutoff', inplace=True)`; same for lens
  let nonlens1 := nonlens.filter (fun r => ltCutoff (cellD r "MJD") observation_cutoff)
  let lens1 := lens.filter (fun r => ltCutoff (cellD r "MJD") observation_cutoff)
  -- `self.NUM_TIMES = nonlens['MJD'].nunique()`
  let T := nuniqueCol nonlens1 "MJD"
  -- `assert nonlens['MJD'].nunique() == lens['MJD'].nunique()`
  if nuniqueCol nonlens1 "MJD" ≠ nuniqueCol lens1 "MJD" then
    .error "MJD nunique assertion" else
  -- `final_nonlenses = nonlens['objectId'].unique()[: self.NUM_POSITIVES]`
  let final_nonlenses :=
    (uniqueFirst (nonlens1.map (fun r => cellD r "objectId"))).take NUM_POSITIVES
  -- `nonlens = nonlens[nonlens['objectId'].isin(final_nonlenses)]`
  let nonlens2 := nonlens1.filter (fun r => final_nonlenses.contains (cellD r "objectId"))
  -- `assert np.array_equal(lens.shape, nonlens.shape)`
  if shapeOf lens1 ≠ shapeOf nonlens2 then .error "shape assertion" else
  .ok (lens1, nonlens2, T)

/-- Stable-sort key order of `sort_values(['objectId', 'filter', 'MJD'])`
(line 88): lexicographic on the three columns. -/
def rowLe (r s : Row) : Bool :=
  decide (cellD r "objectId" < cellD s "objectId") ||
  (decide (cellD r "objectId" = cellD s "objectId") &&
    (decide (cellD r "filter" < cellD s "filter") ||
      (decide (cellD r "filter" = cellD s "filter") &&
        decide (cellD r "MJD" ≤ cellD s "MJD"))))

/-- Embeds `np.min(src['MJD'].values)` over the rows of a (nonempty) table. -/
def minMJD (t : Table) : ℚ := ((t.map (fun r => cellD r "MJD")).min?).getD 0

/-- The `d_time` values of the sorted rows:
`src['MJD'] - src['MJD'].shift(+1)`, with the leading `NaN` filled by `0.0`
and the result clipped below at `0.0` (lines 89–91).  Note the shift runs
over the whole sorted table, not within `(objectId, filter)` groups. -/
def dtimeVals (ms : List ℚ) : List ℚ :=
  match ms with
  | [] => []
  | m :: rest => 0 :: (List.zip (m :: rest) rest).map (fun p => max 0 (p.2 - p.1))

/-- Embeds `src['e'], src['phi'] = e1e2_to_ephi(e1=src['e1'], e2=src['e2'])`
(line 81): append the two derived shear columns. -/
def addEphi (ephi : ℚ → ℚ → ℚ × ℚ) (src : Table) : Table :=
  src.map (fun r =>
    assignCol (assignCol r "e" (ephi (cellD r "e1") (cellD r "e2")).1)
      "phi" (ephi (cellD r "e1") (cellD r "e2")).2)

/-- Embeds `src['MJD'] = src['MJD'] - np.min(src['MJD'].values)` (line 83). -/
def rebaseMJD (t : Table) : Table :=
  t.map (fun r => assignCol r "MJD" (cellD r "MJD" - minMJD t))

/-- Embeds `time_map = dict(zip(np.sort(src['ccdVisitId'].unique()), range(NUM_TIMES)))`
(lines 85–86); `zip` truncates to the shorter operand. -/
def timeMapOf (NUM_TIMES : ℕ) (t : Table) : List (ℚ × ℕ) :=
  (isortLe (fun a b => decide (a ≤ b))
      ((t.map (fun r => cellD r "ccdVisitId")).dedup)).zip (List.range NUM_TIMES)

/-- Whether `src['ccdVisitId'].map(time_map)` is `NaN`-free, i.e. whether
the subsequent `.astype(int)` succeeds (line 86). -/
def timeIndexGuard (NUM_TIMES : ℕ) (t : Table) : Bool :=
  t.all (fun r => (alookup (cellD r "ccdVisitId") (timeMapOf NUM_TIMES t)).isSome)

/-- Embeds `src['time_index'] = src['ccdVisitId'].map(time_map).astype(int)` in the
non-raising case. -/
def addTimeIndex (NUM_TIMES : ℕ) (t : Table) : Table :=
  t.map (fun r =>
    assignCol r "time_index"
      (((alookup (cellD r "ccdVisitId") (timeMapOf NUM_TIMES t)).getD 0 : ℕ) : ℚ))

/-- Embeds `src['d_time'] = src['MJD'] - src['MJD'].shift(+1)` with `fillna(0.0)`
and `np.clip(..., a_min=0.0)` (lines 89–91), on the sorted rows. -/
def addDtime (t : Table) : Table :=
  (t.zip (dtimeVals (t.map (fun r => cellD r "MJD")))).map
    (fun p => assignCol p.1 "d_time" p.2)

/-- Embeds `src.drop(['MJD', 'ccdVisitId'], axis=1, inplace=True)` (line 92). -/
def dropRawCols (t : Table) : Table :=
  t.map (fun r => r.filter (fun p => !(p.1 == "MJD" || p.1 == "ccdVisitId")))

/-- Embeds `Dataloader.set_additional_columns`, the per-table loop body
(lines 79–92), for one table `src`.  `ephi` is the external
`e1e2_to_ephi` utility from `data_utils` (outside this repository), treated
as a pure function `(e1, e2) → (e, phi)` of the two shear columns.
Failure cases are the exceptions the pandas code raises: `np.min` on an
empty table, and `.astype(int)` on the `NaN`s produced when `ccdVisitId`
values fall outside the truncating `zip(sorted_obs_id, range(NUM_TIMES))`.
Because every operation is in-place (`src[...] = ...`,
`sort_values(..., inplace=True)`, `drop(..., inplace=True)`), the returned
table is also the post-call state of the argument. -/
def set_additional_columns_one (ephi : ℚ → ℚ → ℚ × ℚ) (NUM_TIMES : ℕ)
    (src : Table) : Except String Table :=
  if src.isEmpty then .error "zero-size array to reduction operation minimum" else
  if ¬ timeIndexGuard NUM_TIMES (rebaseMJD (addEphi ephi src)) then
    .error "cannot convert non-finite values (NA or inf) to integer" else
  .ok (dropRawCols (addDtime (isortLe rowLe
    (addTimeIndex NUM_TIMES (rebaseMJD (addEphi ephi src))))))

/-- Embeds `Dataloader.set_additional_columns` (lines 68–99): the loop body applied
to `lens` and then to `nonlens`; both are mutated in place and returned. -/
def set_additional_columns (ephi : ℚ → ℚ → ℚ × ℚ) (NUM_TIMES : ℕ)
    (lens nonlens : Table) : Except String (Table × Table) := do
  let lens' ← set_additional_columns_one ephi NUM_TIMES lens
  let nonlens' ← set_additional_columns_one ephi NUM_TIMES nonlens
  .ok (lens', nonlens')

/-! ## Dataset assembly (`combine_lens_nonlens`, `shuffle_data`) -/

/-- The `np.ndarray.shape` of a (rectangular) 3-d nested list. -/
def shape3 (X : List (List (List ℚ))) : ℕ × ℕ × ℕ :=
  (X.length, (X.headD []).length, ((X.headD []).headD []).length)

/-- Embeds `Dataloader.combine_lens_nonlens` (lines 203–217).  The
`np.random.seed(self.seed)` call sets the process-wide RNG state; in this
embedding the permutation later drawn from that state is the explicit
argument of `shuffle_data`. -/
def combine_lens_nonlens (NUM_POSITIVES : ℕ)
    (X_lens : List (List (List ℚ))) (y_lens : List ℚ)
    (X_nonlens : List (List (List ℚ))) (y_nonlens : List ℚ) :
    Except String (List (List (List ℚ)) × List ℚ) :=
  if shape3 X_lens ≠ shape3 X_nonlens then .error "tensor shape assertion" else
  if y_lens.length ≠ y_nonlens.length then .error "label length assertion" else
  let X := X_lens ++ X_nonlens
  let y := y_lens ++ y_nonlens
  if X.length ≠ 2 * NUM_POSITIVES then .error "combined length assertion" else
  .ok (X, y)

/-- Embeds `Dataloader.shuffle_data` (lines 219–225).  `p` is the value of
`np.random.permutation(2*self.NUM_POSITIVES)` drawn from the RNG state
seeded in `combine_lens_nonlens`; `X = X[p, :]` and `y = y[p,]` apply that
one index array to both. -/
def shuffle_data (p : List ℕ) (X : List (List (List ℚ))) (y : List ℚ) :
    List (List (List ℚ)) × List ℚ :=
  (p.map (fun i => X.getD i []), p.map (fun i => y.getD i 0))

/-! ## Further list/assoc-list lemmas used by the claims -/

instance {ε α : Type _} [DecidableEq ε] [DecidableEq α] : DecidableEq (Except ε α) :=
  fun a b =>
    match a, b with
    | .ok x, .ok y =>
      if h : x = y then isTrue (by rw [h]) else isFalse (fun hh => h (Except.ok.inj hh))
    | .error x, .error y =>
      if h : x = y then isTrue (by rw [h]) else isFalse (fun hh => h (Except.error.inj hh))
    | .ok _, .error _ => isFalse (fun hh => Except.noConfusion hh)
    | .error _, .ok _ => isFalse (fun hh => Except.noConfusion hh)

theorem getD_mem {α : Type _} : ∀ (l : List α) (i : ℕ) (d : α), i < l.length → l.getD i d ∈ l
  | [], _, _, h => absurd h (by simp)
  | a :: _, 0, _, _ => List.mem_cons_self a _
  | _ :: l, i + 1, d, h => List.mem_cons_of_mem _ (getD_mem l i d (by simpa using h))

theorem lookup_isSome_iff_mem_keys (r : Row) (c : String) :
    (alookup c r).isSome = true ↔ c ∈ r.map Prod.fst := by
  induction r with
  | nil => simp [alookup]
  | cons p r ih =>
    by_cases h : p.1 = c
    · simp [alookup, h]
    · simp only [alookup, if_neg h, List.map_cons, List.mem_cons]
      rw [ih]
      exact ⟨Or.inr, fun hc => hc.resolve_left (fun hh => h hh.symm)⟩

/-- The in-place update branch of `assignCol`, factored out. -/
def updPair (c : String) (v : ℚ) (p : String × ℚ) : String × ℚ :=
  if p.1 = c then (c, v) else p

theorem alookup_map_updPair_self (c : String) (v : ℚ) :
    ∀ r : Row, alookup c (r.map (updPair c v)) = (alookup c r).map (fun _ => v) := by
  intro r
  induction r with
  | nil => simp [alookup]
  | cons p r ih =>
    by_cases h : p.1 = c
    · rw [List.map_cons, show updPair c v p = (c, v) from by simp [updPair, h]]
      simp [alookup, h]
    · rw [List.map_cons, show updPair c v p = p from by simp [updPair, h]]
      simp [alookup, h, ih]

theorem alookup_map_updPair_ne (c c' : String) (v : ℚ) (h : c ≠ c') :
    ∀ r : Row, alookup c (r.map (updPair c' v)) = alookup c r := by
  intro r
  induction r with
  | nil => simp [alookup]
  | cons p r ih =>
    by_cases hp : p.1 = c'
    · rw [List.map_cons, show updPair c' v p = (c', v) from by simp [updPair, hp]]
      have h1 : ¬ ((c', v) : String × ℚ).1 = c := fun hh => h hh.symm
      have h2 : ¬ p.1 = c := by rw [hp]; exact fun hh => h hh.symm
      simp [alookup, h1, h2, ih]
    · rw [List.map_cons, show updPair c' v p = p from by simp [updPair, hp]]
      by_cases hcp : p.1 = c
      · simp [alookup, hcp]
      · simp [alookup, hcp, ih]

theorem alookup_append_single {ν : Type _} (c c' : String) (v : ν) :
    ∀ r : List (String × ν), alookup c (r ++ [(c', v)]) =
      match alookup c r with
      | some x => some x
      | none => if c' = c then some v else none := by
  intro r
  induction r with
  | nil => simp [alookup]
  | cons p r ih =>
    by_cases hcp : p.1 = c
    · simp [alookup, hcp]
    · simp [alookup, hcp, ih]

theorem cellD_assignCol_self (r : Row) (c : String) (v : ℚ) :
    cellD (assignCol r c v) c = v := by
  unfold assignCol cellD
  split
  · rename_i hs
    rw [show (fun p : String × ℚ => if p.1 = c then (c, v) else p) = updPair c v from rfl,
      alookup_map_updPair_self]
    obtain ⟨x, hx⟩ := Option.isSome_iff_exists.mp hs
    simp [hx]
  · rw [alookup_append_single]
    rename_i hs
    have hn : alookup c r = none := Option.not_isSome_iff_eq_none.mp (by simpa using hs)
    simp [hn]

theorem cellD_assignCol_ne (r : Row) (c c' : String) (v : ℚ) (h : c ≠ c') :
    cellD (assignCol r c' v) c = cellD r c := by
  unfold assignCol cellD
  split
  · rw [show (fun p : String × ℚ => if p.1 = c' then (c', v) else p) = updPair c' v from rfl,
      alookup_map_updPair_ne c c' v h]
  · rw [alookup_append_single]
    cases hx : alookup c r
    · simp only [hx]
      rw [if_neg (fun hh : c' = c => h hh.symm)]
    · simp [hx]

/-- Dropping pairs whose keys differ from `c` does not change a lookup of `c`. -/
theorem alookup_filter_key {ν : Type _} (r : List (String × ν)) (c : String)
    (g : String → Bool) (hg : g c = true) :
    alookup c (r.filter (fun p => g p.1)) = alookup c r := by
  induction r with
  | nil => simp
  | cons p r ih =>
    by_cases hcp : p.1 = c
    · have hgp : g p.1 = true := by rw [hcp]; exact hg
      simp [List.filter, hg, hgp, alookup, hcp]
    · by_cases hgp : g p.1 = true
      · simp [List.filter, hgp, alookup, hcp, ih]
      · simp only [Bool.not_eq_true] at hgp
        simp [List.filter, hgp, alookup, hcp, ih]

/-- Keys of a row after a column assignment: unchanged when the column
exists, appended otherwise. -/
theorem keys_assignCol (r : Row) (c : String) (v : ℚ) :
    (assignCol r c v).map Prod.fst =
      if c ∈ r.map Prod.fst then r.map Prod.fst else r.map Prod.fst ++ [c] := by
  unfold assignCol
  split
  · rename_i hs
    rw [if_pos ((lookup_isSome_iff_mem_keys r c).mp (by simpa using hs))]
    rw [List.map_map]
    refine List.map_congr_left ?_
    intro p _
    by_cases hp : p.1 = c <;> simp [updPair, Function.comp, hp]
  · rename_i hs
    rw [if_neg (fun hmem => hs (by simpa using (lookup_isSome_iff_mem_keys r c).mpr hmem))]
    simp

/-- Filtering pairs by a predicate on the key filters the key list. -/
theorem keys_filter_key (r : Row) (g : String → Bool) :
    (r.filter (fun p => g p.1)).map Prod.fst = (r.map Prod.fst).filter g := by
  induction r with
  | nil => simp
  | cons p r ih =>
    by_cases hgp : g p.1 = true
    · simp [List.filter, hgp, ih]
    · simp only [Bool.not_eq_true] at hgp
      simp [List.filter, hgp, ih]

/-! ## Characterizing successful runs of `make_data_array` -/

theorem map_flatMap' {α β γ : Type _} (f : β → γ) (g : α → List β) :
    ∀ l : List α, (l.flatMap g).map f = l.flatMap (fun a => (g a).map f) := by
  intro l
  induction l with
  | nil => simp
  | cons a l ih => simp [List.flatMap_cons, ih]

theorem length_allPairs_aux : ∀ n : ℕ,
    ((List.range n).flatMap (fun a => (List.finRange 5).map (fun f => (a, f)))).length =
      n * 5
  | 0 => by simp
  | n + 1 => by
    rw [List.range_succ, List.flatMap_append, List.length_append,
      length_allPairs_aux n]
    simp only [List.flatMap_cons, List.flatMap_nil, List.append_nil,
      List.length_map, List.length_finRange]
    omega

theorem length_allPairs (attrs : List String) :
    (allPairs attrs).length = attrs.length * 5 :=
  length_allPairs_aux attrs.length

theorem length_channelPairs (attrs : List String) :
    (channelPairs attrs).length = attrs.length * 5 := by
  rw [channelPairs, length_isortLe, length_allPairs]

/-- What a successful per-filter-column (`onehot_filters = False`) run of
`make_data_array` guarantees, and what it returns. -/
theorem make_data_array_ok_else (NUM_POSITIVES NUM_TIMES : ℕ) (attrs : List String)
    (src : List LongRow) (truth_value : ℚ)
    (out : List (List (List ℚ)) × List ℚ)
    (h : make_data_array NUM_POSITIVES NUM_TIMES attrs false src truth_value = .ok out) :
    src.length = NUM_POSITIVES * NUM_TIMES ∧
    (objsOf src).length = NUM_POSITIVES ∧
    (5 * attrs.length) * (timesOf src).length = attrs.length * 5 * NUM_TIMES ∧
    out = (reshapeSwap NUM_TIMES (5 * attrs.length)
      ((objsOf src).map (fun o =>
        (pivot2_pairs attrs (timesOf src)).map
          (fun p => fillSentinel (pivotCell (chanVals src o p.2 p.1))))),
      List.replicate NUM_POSITIVES truth_value) := by
  unfold make_data_array at h
  split at h
  · exact absurd h (by simp)
  rw [if_neg (by simp)] at h
  split at h
  · exact absurd h (by simp)
  split at h
  · exact absurd h (by simp)
  split at h
  · exact absurd h (by simp)
  split at h
  · exact absurd h (by simp)
  rename_i hlen hg2 hg4 hg6 hg7
  rw [Except.ok.injEq] at h
  exact ⟨not_not.mp hlen, (not_not.mp hg6).1, (not_not.mp hg6).2, h.symm⟩

/-- What a successful one-hot (`onehot_filters = True`) run of
`make_data_array` guarantees, and what it returns. -/
theorem make_data_array_ok_onehot (NUM_POSITIVES NUM_TIMES : ℕ) (attrs : List String)
    (src : List LongRow) (truth_value : ℚ)
    (out : List (List (List ℚ)) × List ℚ)
    (h : make_data_array NUM_POSITIVES NUM_TIMES attrs true src truth_value = .ok out) :
    src.length = NUM_POSITIVES * NUM_TIMES ∧
    (objsOf src).length = NUM_POSITIVES ∧
    out = (reshapeSwap NUM_TIMES (attrs.length + 5)
      ((objsOf src).map (fun o =>
        (ohChannels attrs).flatMap (fun k =>
          (timesOf src).map (fun t =>
            fillSentinel (pivotCell (ohChanVals attrs src o t k)))))),
      List.replicate NUM_POSITIVES truth_value) := by
  unfold make_data_array at h
  split at h
  · exact absurd h (by simp)
  rw [if_pos rfl] at h
  split at h
  · exact absurd h (by simp)
  split at h
  · exact absurd h (by simp)
  split at h
  · exact absurd h (by simp)
  rename_i hlen hg1 hg2 hg3
  rw [Except.ok.injEq] at h
  exact ⟨not_not.mp hlen, (not_not.mp hg2).1, h.symm⟩

/-- The shape of `reshapeSwap`: one matrix per wide row, each
`NUM_TIMES × C`. -/
theorem reshapeSwap_shape (T C : ℕ) (rows : List (List ℚ)) :
    (reshapeSwap T C rows).length = rows.length ∧
    ∀ i, i < rows.length →
      ((reshapeSwap T C rows).getD i []).length = T ∧
      ∀ j, j < T → (((reshapeSwap T C rows).getD i []).getD j []).length = C := by
  constructor
  · simp [reshapeSwap]
  · intro i hi
    rw [reshapeSwap, getD_map_lt _ _ [] rows i hi]
    constructor
    · simp
    · intro j hj
      rw [getD_map_lt _ _ 0 (List.range T) j (by simpa using hj)]
      simp

/-! ## Claim C3: the row-count precondition aborts `make_data_array` -/

/-- Claim C3: `make_data_array` checks `src.shape[0] == NUM_POSITIVES*NUM_TIMES`
first; any violation yields the assertion failure before any pivot, sentinel
fill, or reshape is performed (the guard is the first operation after the
column selection, ahead of both branches). -/
theorem make_data_array_row_count_aborts (NUM_POSITIVES NUM_TIMES : ℕ)
    (attrs : List String) (onehot_filters : Bool) (src : List LongRow)
    (truth_value : ℚ) (h : src.length ≠ NUM_POSITIVES * NUM_TIMES) :
    make_data_array NUM_POSITIVES NUM_TIMES attrs onehot_filters src truth_value =
      .error "row count assertion" := by
  unfold make_data_array
  rw [if_pos h]

/-- Witness for C3: a 3-row table with `NUM_POSITIVES*NUM_TIMES = 4` aborts. -/
theorem make_data_array_row_count_aborts_witness :
    ([⟨0, 0, 0, [1]⟩, ⟨0, 1, 1, [2]⟩, ⟨1, 0, 2, [3]⟩] : List LongRow).length ≠ 2 * 2 ∧
    make_data_array 2 2 attributesFull false
      [⟨0, 0, 0, [1]⟩, ⟨0, 1, 1, [2]⟩, ⟨1, 0, 2, [3]⟩] 1 = .error "row count assertion" :=
  ⟨by decide,
   make_data_array_row_count_aborts 2 2 attributesFull false
     [⟨0, 0, 0, [1]⟩, ⟨0, 1, 1, [2]⟩, ⟨1, 0, 2, [3]⟩] 1 (by decide)⟩

/-! ## Claim C2: what `set_balance` guarantees about its returned tables

The distinct-`MJD` assertion runs *before* the non-lens table is truncated to
the first `NUM_POSITIVES` object identifiers.  The truncation can remove the
last rows carrying some `MJD` value, so the *returned* non-lens table may
have strictly fewer distinct time slots than the returned lens table even
though `set_balance` completes without tripping any assertion. -/

/-- Lens table for the C2 counterexample: one object, observed at two
distinct times. -/
def lensC2 : Table :=
  [[("objectId", 0), ("MJD", 0)], [("objectId", 0), ("MJD", 1)]]

/-- Non-lens table for the C2 counterexample: object 1 observed twice at
`MJD 0`, object 2 observed at `MJD 1`; truncation to the first
`NUM_POSITIVES = 1` objects keeps only object 1 and erases time slot 1. -/
def nonlensC2 : Table :=
  [[("objectId", 1), ("MJD", 0)], [("objectId", 1), ("MJD", 0)],
   [("objectId", 2), ("MJD", 1)]]

/-- The value returned by `set_balance` on the C2 counterexample input. -/
def outC2 : Table × Table × ℕ :=
  (set_balance 1 lensC2 nonlensC2 none).toOption.getD ([], [], 0)

/-- Claim C2, counterexample: `set_balance` completes without aborting, yet the
returned tables have different counts of distinct `MJD` values (2 for lens,
1 for non-lens), refuting the claim that the two returned tables always have
an identical count of distinct time slots. -/
theorem set_balance_distinct_slots_counterexample :
    set_balance 1 lensC2 nonlensC2 none = .ok outC2 ∧
    nuniqueCol outC2.1 "MJD" ≠ nuniqueCol outC2.2.1 "MJD" := by
  constructor
  · rfl
  · decide

/-- Claim C2, amended: Whenever `set_balance` returns, every row of both
returned tables has its timestamp below the cutoff and the two returned
tables have identical row counts; the lens table's distinct-`MJD` count
equals the returned `NUM_TIMES` (the distinct-`MJD` count of the
cutoff-filtered non-lens table *before* object truncation).  The
distinct-slot equality between the two *returned* tables does not hold in
general (see the counterexample). -/
theorem set_balance_ok_invariants (NUM_POSITIVES : ℕ) (lens nonlens : Table)
    (cutoff : Option ℚ) (lens' nonlens' : Table) (T : ℕ)
    (h : set_balance NUM_POSITIVES lens nonlens cutoff = .ok (lens', nonlens', T)) :
    (∀ r ∈ lens', ltCutoff (cellD r "MJD") cutoff = true) ∧
    (∀ r ∈ nonlens', ltCutoff (cellD r "MJD") cutoff = true) ∧
    lens'.length = nonlens'.length ∧
    nuniqueCol lens' "MJD" = T := by
  unfold set_balance at h
  simp only at h
  split at h
  · exact absurd h (by simp)
  · split at h
    · exact absurd h (by simp)
    · rename_i hnu hsh
      rw [Except.ok.injEq, Prod.mk.injEq, Prod.mk.injEq] at h
      obtain ⟨hl, hn, hT⟩ := h
      refine ⟨?_, ?_, ?_, ?_⟩
      · intro r hr
        rw [← hl] at hr
        exact (List.mem_filter.mp hr).2
      · intro r hr
        rw [← hn] at hr
        exact (List.mem_filter.mp (List.mem_filter.mp hr).1).2
      · rw [← hl, ← hn]
        have := not_ne_iff.mp hsh
        rw [shapeOf, shapeOf, Prod.mk.injEq] at this
        exact this.1
      · rw [← hl, ← hT]
        exact (not_ne_iff.mp hnu).symm

/-- Witness for C2 (amended): a balanced pair on which `set_balance`
succeeds, with the guaranteed facts instantiated. -/
theorem set_balance_ok_invariants_witness :
    set_balance 1 [[("objectId", 5), ("MJD", 0)]] [[("objectId", 9), ("MJD", 0)]]
        (some 10) =
      .ok ([[("objectId", 5), ("MJD", 0)]], [[("objectId", 9), ("MJD", 0)]], 1) ∧
    ltCutoff (cellD [(("objectId" : String), (5 : ℚ)), ("MJD", 0)] "MJD") (some 10) = true ∧
    ([[(("objectId" : String), (5 : ℚ)), ("MJD", 0)]] : Table).length =
      ([[(("objectId" : String), (9 : ℚ)), ("MJD", 0)]] : Table).length ∧
    nuniqueCol [[("objectId", 5), ("MJD", 0)]] "MJD" = 1 := by
  have h := set_balance_ok_invariants 1 [[("objectId", 5), ("MJD", 0)]]
    [[("objectId", 9), ("MJD", 0)]] (some 10)
    [[("objectId", 5), ("MJD", 0)]] [[("objectId", 9), ("MJD", 0)]] 1 (by decide)
  exact ⟨by decide, h.1 _ (List.mem_cons_self _ _), h.2.2.1, h.2.2.2⟩

/-! ## Claim C10: totality and range of the `time_index` assignment -/

theorem alookup_zip_isSome {κ ν : Type _} [DecidableEq κ] (x : κ) :
    ∀ (ks : List κ) (vs : List ν),
      (alookup x (ks.zip vs)).isSome = true ↔ x ∈ ks.take vs.length
  | [], vs => by simp [alookup]
  | k :: ks, [] => by simp [alookup]
  | k :: ks, v :: vs => by
    show (alookup x ((k, v) :: ks.zip vs)).isSome = true ↔ x ∈ k :: List.take vs.length ks
    by_cases h : k = x
    · simp [alookup, h]
    · rw [show alookup x ((k, v) :: ks.zip vs) = alookup x (ks.zip vs) from by
        simp [alookup, h]]
      rw [alookup_zip_isSome x ks vs, List.mem_cons]
      exact ⟨Or.inr, fun hc => hc.resolve_left (fun hh => h hh.symm)⟩

theorem alookup_zip_mem {κ ν : Type _} [DecidableEq κ] (x : κ) (k : ν) :
    ∀ (ks : List κ) (vs : List ν), alookup x (ks.zip vs) = some k → k ∈ vs
  | [], vs, h => by simp [alookup] at h
  | a :: ks, [], h => by simp [alookup] at h
  | a :: ks, v :: vs, h => by
    rw [show (a :: ks).zip (v :: vs) = (a, v) :: ks.zip vs from rfl] at h
    by_cases ha : a = x
    · rw [show alookup x ((a, v) :: ks.zip vs) = some v from by simp [alookup, ha],
        Option.some.injEq] at h
      exact h ▸ List.mem_cons_self v vs
    · rw [show alookup x ((a, v) :: ks.zip vs) = alookup x (ks.zip vs) from by
        simp [alookup, ha]] at h
      exact List.mem_cons_of_mem _ (alookup_zip_mem x k ks vs h)

/-- A column untouched by the `e`/`phi`/`MJD` assignments reads the same
after `rebaseMJD ∘ addEphi`. -/
theorem map_cellD_rebase_addEphi (ephi : ℚ → ℚ → ℚ × ℚ) (src : Table)
    (c : String) (h1 : c ≠ "e") (h2 : c ≠ "phi") (h3 : c ≠ "MJD") :
    (rebaseMJD (addEphi ephi src)).map (fun r => cellD r c) =
      src.map (fun r => cellD r c) := by
  unfold rebaseMJD addEphi
  rw [List.map_map, List.map_map]
  refine List.map_congr_left ?_
  intro r _
  simp only [Function.comp]
  rw [cellD_assignCol_ne _ _ _ _ h3, cellD_assignCol_ne _ _ _ _ h2,
    cellD_assignCol_ne _ _ _ _ h1]

/-- The column `src['ccdVisitId'].unique()` as a set: the distinct visit identifiers. -/
def visitIds (t : Table) : List ℚ := (t.map (fun r => cellD r "ccdVisitId")).dedup

/-- Claim C10: `time_index` is assigned by zipping the sorted distinct visit
identifiers against `range(NUM_TIMES)`, and `zip` truncates: when a table
has more distinct `ccdVisitId` values than `NUM_TIMES`, some identifiers
are unmapped (`NaN`) and the `astype(int)` conversion raises, so
`set_additional_columns` is not total; otherwise the conversion succeeds and
every assigned `time_index` lies in `[0, NUM_TIMES)`. -/
theorem set_additional_columns_time_index_range (ephi : ℚ → ℚ → ℚ × ℚ)
    (NUM_TIMES : ℕ) (src : Table) (hne : src ≠ []) :
    (NUM_TIMES < (visitIds src).length →
      (set_additional_columns_one ephi NUM_TIMES src).isOk = false) ∧
    ((visitIds src).length ≤ NUM_TIMES →
      (set_additional_columns_one ephi NUM_TIMES src).isOk = true ∧
      ∀ out, set_additional_columns_one ephi NUM_TIMES src = .ok out →
        ∀ r ∈ out, 0 ≤ cellD r "time_index" ∧ cellD r "time_index" < (NUM_TIMES : ℚ)) := by
  have hemp : ¬ (src.isEmpty = true) := by simpa using hne
  have hcol := map_cellD_rebase_addEphi ephi src "ccdVisitId"
    (by decide) (by decide) (by decide)
  set s2 := rebaseMJD (addEphi ephi src) with hs2
  have hids : (s2.map (fun r => cellD r "ccdVisitId")).dedup = visitIds src := by
    rw [hcol]; rfl
  have htm : timeMapOf NUM_TIMES s2 =
      (isortLe (fun a b => decide (a ≤ b)) (visitIds src)).zip (List.range NUM_TIMES) := by
    rw [timeMapOf, hids]
  constructor
  · intro hD
    have hguard : ¬ (timeIndexGuard NUM_TIMES s2 = true) := by
      intro hg
      rw [timeIndexGuard, List.all_eq_true] at hg
      have hsub : visitIds src ⊆
          (isortLe (fun a b => decide (a ≤ b)) (visitIds src)).take NUM_TIMES := by
        intro x hx
        have hx' : x ∈ s2.map (fun r => cellD r "ccdVisitId") := by
          rw [hcol]
          exact List.mem_dedup.mp hx
        obtain ⟨r, hr, hrx⟩ := List.mem_map.mp hx'
        have := hg r hr
        rw [htm] at this
        rw [alookup_zip_isSome, List.length_range] at this
        rw [← hrx]
        exact this
      have hlen : (visitIds src).length ≤ NUM_TIMES := by
        have hnd : (visitIds src).Nodup := List.nodup_dedup _
        have := (List.subperm_of_subset hnd hsub).length_le
        calc (visitIds src).length
            ≤ ((isortLe (fun a b => decide (a ≤ b)) (visitIds src)).take NUM_TIMES).length :=
              this
          _ ≤ NUM_TIMES := by
              rw [List.length_take]
              exact min_le_left _ _
      omega
    unfold set_additional_columns_one
    rw [if_neg hemp, if_pos (by simpa using hguard)]
    rfl
  · intro hD
    have hguard : timeIndexGuard NUM_TIMES s2 = true := by
      rw [timeIndexGuard, List.all_eq_true]
      intro r hr
      rw [htm, alookup_zip_isSome, List.length_range,
        List.take_of_length_le (by rw [length_isortLe]; exact hD),
        mem_isortLe]
      have : cellD r "ccdVisitId" ∈ s2.map (fun r => cellD r "ccdVisitId") :=
        List.mem_map.mpr ⟨r, hr, rfl⟩
      rw [hcol] at this
      exact List.mem_dedup.mpr this
    have hres : set_additional_columns_one ephi NUM_TIMES src =
        .ok (dropRawCols (addDtime (isortLe rowLe (addTimeIndex NUM_TIMES s2)))) := by
      unfold set_additional_columns_one
      rw [if_neg hemp, if_neg (by simp [hguard])]
    refine ⟨by rw [hres]; rfl, ?_⟩
    intro out hout r hr
    rw [hres, Except.ok.injEq] at hout
    rw [← hout] at hr
    obtain ⟨q, hq, hrq⟩ := List.mem_map.mp hr
    obtain ⟨⟨p1, dv⟩, hp, hqp⟩ := List.mem_map.mp hq
    have hp1 : p1 ∈ addTimeIndex NUM_TIMES s2 :=
      (mem_isortLe rowLe _ _).mp (List.of_mem_zip hp).1
    obtain ⟨w, hw, hp1w⟩ := List.mem_map.mp hp1
    have hcellr : cellD r "time_index" = cellD q "time_index" := by
      rw [← hrq]
      unfold cellD
      rw [alookup_filter_key q "time_index"
        (fun c => !(c == "MJD" || c == "ccdVisitId")) (by decide)]
    have hcellq : cellD q "time_index" = cellD p1 "time_index" := by
      rw [← hqp]
      exact cellD_assignCol_ne _ _ _ _ (by decide)
    have hcellp : cellD p1 "time_index" =
        (((alookup (cellD w "ccdVisitId") (timeMapOf NUM_TIMES s2)).getD 0 : ℕ) : ℚ) := by
      rw [← hp1w]
      exact cellD_assignCol_self _ _ _
    have hk : (alookup (cellD w "ccdVisitId") (timeMapOf NUM_TIMES s2)).getD 0 < NUM_TIMES := by
      have hgw : (alookup (cellD w "ccdVisitId") (timeMapOf NUM_TIMES s2)).isSome = true := by
        rw [timeIndexGuard, List.all_eq_true] at hguard
        exact hguard w hw
      obtain ⟨k, hk⟩ := Option.isSome_iff_exists.mp hgw
      have : k ∈ List.range NUM_TIMES := by
        rw [htm] at hk
        exact alookup_zip_mem _ _ _ _ hk
      rw [hk]
      simpa using List.mem_range.mp this
    rw [hcellr, hcellq, hcellp]
    constructor
    · exact Nat.cast_nonneg _
    · exact_mod_cast hk

/-- The external `e1e2_to_ephi` stub used by the concrete examples. -/
def ephiEx : ℚ → ℚ → ℚ × ℚ := fun a b => (a, b)

/-- Example table for the C10 witness: two distinct visit identifiers. -/
def srcC10 : Table :=
  [[("objectId", 1), ("MJD", 0), ("ccdVisitId", 100)],
   [("objectId", 1), ("MJD", 2), ("ccdVisitId", 200)]]

/-- Witness for C10: with `NUM_TIMES = 1` and two distinct visit
identifiers, the derivation raises. -/
theorem set_additional_columns_time_index_range_witness :
    srcC10 ≠ [] ∧ 1 < (visitIds srcC10).length ∧
    (set_additional_columns_one ephiEx 1 srcC10).isOk = false :=
  ⟨by decide, by decide,
   (set_additional_columns_time_index_range ephiEx 1 srcC10 (by decide)).1 (by decide)⟩

/-! ## Claim C7: the shape of the returned tensor and labels

The row-count precondition alone does not guarantee that `make_data_array`
returns: the later pivot-shape assertions can still abort.  A table whose
row count is `NUM_POSITIVES × NUM_TIMES` but whose rows come from a
different object/time-slot split passes the row-count assert (line 114) and
the first pivot assert, yet trips the second pivot assert
(`shape == (NUM_POSITIVES, …)`, lines 181–183) because the number of
distinct objects differs from `NUM_POSITIVES`.  What does hold is the
shape guarantee on every run that returns. -/

/-- Input for the C7 counterexample: 6 rows = `2 × 3`, but from 3 objects
× 2 time slots (all five filters observed). -/
def srcC7bad : List LongRow :=
  [⟨1, 0, 0, [1, 2, 3]⟩, ⟨1, 1, 1, [4, 5, 6]⟩, ⟨2, 0, 2, [7, 8, 9]⟩,
   ⟨2, 1, 3, [10, 11, 12]⟩, ⟨3, 0, 4, [13, 14, 15]⟩, ⟨3, 1, 0, [16, 17, 18]⟩]

/-- Claim C7, counterexample: an input satisfying the row-count
precondition (`6 = NUM_POSITIVES × NUM_TIMES` with `NUM_POSITIVES = 2`,
`NUM_TIMES = 3`) on which `make_data_array` does not return a tensor at
all: it aborts at the second pivot's shape assertion (3 distinct objects
≠ `NUM_POSITIVES`), refuting "for every input satisfying the row-count
precondition, `make_data_array` returns …". -/
theorem make_data_array_shape_counterexample :
    srcC7bad.length = 2 * 3 ∧
    make_data_array 2 3 attributesLC false srcC7bad 1 =
      .error "second pivot shape assertion" := by
  decide

/-- Claim C7, amended: on every run of `make_data_array` that returns (all
shape assertions pass), the returned tensor has shape
`(NUM_POSITIVES, NUM_TIMES, C)` — with `C = NUM_ATTRIBUTES × NUM_FILTERS`
channels in the per-filter-column layout and
`NUM_ATTRIBUTES + NUM_FILTERS` in the one-hot layout — together with the
label vector `np.ones(NUM_POSITIVES) * truth_value`, i.e. `truth_value`
repeated once per object (`num_objects = NUM_POSITIVES` for both classes
after balancing).  The row-count precondition alone does not guarantee a
return (see the counterexample). -/
theorem make_data_array_shape (NUM_POSITIVES NUM_TIMES : ℕ) (attrs : List String)
    (onehot_filters : Bool) (src : List LongRow) (truth_value : ℚ)
    (out : List (List (List ℚ)) × List ℚ)
    (h : make_data_array NUM_POSITIVES NUM_TIMES attrs onehot_filters src
      truth_value = .ok out) :
    out.1.length = NUM_POSITIVES ∧
    (∀ i, i < NUM_POSITIVES → (out.1.getD i []).length = NUM_TIMES ∧
      ∀ j, j < NUM_TIMES → ((out.1.getD i []).getD j []).length =
        (if onehot_filters then attrs.length + 5 else 5 * attrs.length)) ∧
    out.2 = List.replicate NUM_POSITIVES truth_value := by
  cases onehot_filters
  · obtain ⟨hlen, hobjs, hT, hout⟩ := make_data_array_ok_else _ _ _ _ _ _ h
    rw [hout]
    obtain ⟨h1, h2⟩ := reshapeSwap_shape NUM_TIMES (5 * attrs.length)
      ((objsOf src).map (fun o =>
        (pivot2_pairs attrs (timesOf src)).map
          (fun p => fillSentinel (pivotCell (chanVals src o p.2 p.1)))))
    refine ⟨by rw [h1, List.length_map, hobjs], ?_, rfl⟩
    intro i hi
    have hi' : i < ((objsOf src).map (fun o =>
        (pivot2_pairs attrs (timesOf src)).map
          (fun p => fillSentinel (pivotCell (chanVals src o p.2 p.1))))).length := by
      rw [List.length_map, hobjs]; exact hi
    exact ⟨(h2 i hi').1, fun j hj => by simpa using (h2 i hi').2 j hj⟩
  · obtain ⟨hlen, hobjs, hout⟩ := make_data_array_ok_onehot _ _ _ _ _ _ h
    rw [hout]
    obtain ⟨h1, h2⟩ := reshapeSwap_shape NUM_TIMES (attrs.length + 5)
      ((objsOf src).map (fun o =>
        (ohChannels attrs).flatMap (fun k =>
          (timesOf src).map (fun t =>
            fillSentinel (pivotCell (ohChanVals attrs src o t k))))))
    refine ⟨by rw [h1, List.length_map, hobjs], ?_, rfl⟩
    intro i hi
    have hi' : i < ((objsOf src).map (fun o =>
        (ohChannels attrs).flatMap (fun k =>
          (timesOf src).map (fun t =>
            fillSentinel (pivotCell (ohChanVals attrs src o t k)))))).length := by
      rw [List.length_map, hobjs]; exact hi
    exact ⟨(h2 i hi').1, fun j hj => by simpa using (h2 i hi').2 j hj⟩

/-- Concrete successful run for the C7 witness: one object, five time
slots, the three-attribute (`lightcurve_only`) set, all five filters
observed. -/
def srcC7 : List LongRow :=
  [⟨7, 0, 0, [10, 11, 12]⟩, ⟨7, 1, 1, [20, 21, 22]⟩, ⟨7, 2, 2, [30, 31, 32]⟩,
   ⟨7, 3, 3, [40, 41, 42]⟩, ⟨7, 4, 4, [50, 51, 52]⟩]

/-- The tensor/labels pair returned on `srcC7`. -/
def outC7 : List (List (List ℚ)) × List ℚ :=
  (make_data_array 1 5 attributesLC false srcC7 1).toOption.getD ([], [])

/-- Witness for C7: the run succeeds, with shape `(1, 5, 15)` and the label
vector `[1.0]`. -/
theorem make_data_array_shape_witness :
    make_data_array 1 5 attributesLC false srcC7 1 = .ok outC7 ∧
    outC7.1.length = 1 ∧ (outC7.1.getD 0 []).length = 5 ∧
    ((outC7.1.getD 0 []).getD 0 []).length = 15 ∧
    outC7.2 = List.replicate 1 1 := by
  have h := make_data_array_shape 1 5 attributesLC false srcC7 1 outC7 (by rfl)
  refine ⟨by rfl, h.1, (h.2.1 0 (by decide)).1, ?_, h.2.2⟩
  have h15 := (h.2.1 0 (by decide)).2 0 (by decide)
  simpa [attributesLC] using h15

/-! ## Claims C4 and C9: the cells of the per-filter-column tensor -/

/-- Cell-level description of the per-filter-column tensor: entry
`(o, t, c)` of a successfully built tensor is the sentinel-filled mean of
the long-row values matching the `o`-th object, the `t`-th time slot and
channel `c`. -/
theorem make_data_array_cell (NUM_POSITIVES NUM_TIMES : ℕ) (attrs : List String)
    (src : List LongRow) (truth_value : ℚ)
    (out : List (List (List ℚ)) × List ℚ) (hA : attrs ≠ [])
    (h : make_data_array NUM_POSITIVES NUM_TIMES attrs false src truth_value = .ok out)
    (o t c : ℕ) (ho : o < NUM_POSITIVES) (ht : t < NUM_TIMES)
    (hc : c < 5 * attrs.length) :
    ((out.1.getD o []).getD t []).getD c 0 =
      fillSentinel (pivotCell (chanVals src ((objsOf src).getD o 0)
        ((timesOf src).getD t 0) ((channelPairs attrs).getD c (0, 0)))) := by
  obtain ⟨hlen, hobjs, hT, hout⟩ := make_data_array_ok_else _ _ _ _ _ _ h
  have hA' : 0 < attrs.length := by
    cases attrs
    · exact absurd rfl hA
    · simp
  have htimes : (timesOf src).length = NUM_TIMES := by
    have h5 : 0 < 5 * attrs.length := by omega
    apply Nat.eq_of_mul_eq_mul_left h5
    rw [hT]
    ring
  rw [hout]
  dsimp only
  rw [reshapeSwap]
  rw [getD_map_lt _ [] [] _ o (by rw [List.length_map, hobjs]; exact ho)]
  rw [getD_map_lt _ [] 0 (List.range NUM_TIMES) t (by simpa using ht)]
  rw [getD_range_lt 0 NUM_TIMES t ht]
  rw [getD_map_lt _ 0 0 (List.range (5 * attrs.length)) c (by simpa using hc)]
  rw [getD_range_lt 0 (5 * attrs.length) c hc]
  rw [getD_map_lt _ [] 0 (objsOf src) o (by rw [hobjs]; exact ho)]
  rw [pivot2_pairs, map_flatMap']
  rw [getD_flatMap_const_length _ NUM_TIMES
    (by intro x; rw [List.length_map, List.length_map, htimes]) 0 (0, 0)
    (channelPairs attrs) c t
    (by rw [length_channelPairs]; omega) ht]
  rw [List.map_map]
  rw [getD_map_lt _ 0 0 (timesOf src) t (by rw [htimes]; exact ht)]
  rfl

/-- Claim C4: In the per-filter-column layout, a tensor cell whose
`(objectId, time_index, filter)` combination is absent from the input holds
exactly the sentinel `-9999.0`, and a cell whose combination is present in
exactly one row holds that row's attribute value unchanged. -/
theorem make_data_array_sentinel (NUM_POSITIVES NUM_TIMES : ℕ)
    (attrs : List String) (src : List LongRow) (truth_value : ℚ)
    (out : List (List (List ℚ)) × List ℚ) (hA : attrs ≠ [])
    (h : make_data_array NUM_POSITIVES NUM_TIMES attrs false src truth_value = .ok out)
    (o t c : ℕ) (ho : o < NUM_POSITIVES) (ht : t < NUM_TIMES)
    (hc : c < 5 * attrs.length) :
    (matchRows src ((objsOf src).getD o 0) ((timesOf src).getD t 0)
        ((channelPairs attrs).getD c (0, 0)).2 = [] →
      ((out.1.getD o []).getD t []).getD c 0 = -9999) ∧
    (∀ lr : LongRow, matchRows src ((objsOf src).getD o 0) ((timesOf src).getD t 0)
        ((channelPairs attrs).getD c (0, 0)).2 = [lr] →
      ((out.1.getD o []).getD t []).getD c 0 =
        lr.attrs.getD ((channelPairs attrs).getD c (0, 0)).1 0) := by
  have hcell := make_data_array_cell NUM_POSITIVES NUM_TIMES attrs src truth_value
    out hA h o t c ho ht hc
  constructor
  · intro hm
    rw [hcell, chanVals, hm]
    rfl
  · intro lr hm
    rw [hcell, chanVals, hm]
    show fillSentinel (pivotCell [lr.attrs.getD ((channelPairs attrs).getD c (0, 0)).1 0]) = _
    rw [pivotCell]
    simp [fillSentinel]

/-- Claim C9: In the per-filter-column layout, a tensor cell whose
`(objectId, time_index, filter)` combination matches one or more input
rows holds the arithmetic mean of their attribute values
(`pivot_table`'s default `aggfunc='mean'`); duplicates are averaged, not
rejected. -/
theorem make_data_array_duplicates_mean (NUM_POSITIVES NUM_TIMES : ℕ)
    (attrs : List String) (src : List LongRow) (truth_value : ℚ)
    (out : List (List (List ℚ)) × List ℚ) (hA : attrs ≠ [])
    (h : make_data_array NUM_POSITIVES NUM_TIMES attrs false src truth_value = .ok out)
    (o t c : ℕ) (ho : o < NUM_POSITIVES) (ht : t < NUM_TIMES)
    (hc : c < 5 * attrs.length)
    (hne : chanVals src ((objsOf src).getD o 0) ((timesOf src).getD t 0)
      ((channelPairs attrs).getD c (0, 0)) ≠ []) :
    ((out.1.getD o []).getD t []).getD c 0 =
      (chanVals src ((objsOf src).getD o 0) ((timesOf src).getD t 0)
          ((channelPairs attrs).getD c (0, 0))).sum /
        ((chanVals src ((objsOf src).getD o 0) ((timesOf src).getD t 0)
          ((channelPairs attrs).getD c (0, 0))).length : ℚ) := by
  rw [make_data_array_cell NUM_POSITIVES NUM_TIMES attrs src truth_value
    out hA h o t c ho ht hc]
  rw [pivotCell, if_neg (by simpa using hne)]
  rfl

/-- Concrete input for the C4 witness: two objects, three time slots, all
five filters observed, no duplicate `(objectId, time_index, filter)` key;
object 1 has no `u`-band row at time slot 1. -/
def srcC4 : List LongRow :=
  [⟨1, 0, 0, [10, 11, 12]⟩, ⟨1, 1, 1, [20, 21, 22]⟩, ⟨1, 2, 2, [30, 31, 32]⟩,
   ⟨2, 0, 3, [40, 41, 42]⟩, ⟨2, 1, 4, [50, 51, 52]⟩, ⟨2, 2, 0, [60, 61, 62]⟩]

/-- The tensor/labels pair returned on `srcC4`. -/
def outC4 : List (List (List ℚ)) × List ℚ :=
  (make_data_array 2 3 attributesLC false srcC4 1).toOption.getD ([], [])

/-- Witness for C4: channel 9 is `u_apMag`; the absent combination
`(object 1, time 1, filter u)` yields the sentinel, the present combination
`(object 1, time 0, filter u)` yields the input value `10` unchanged. -/
theorem make_data_array_sentinel_witness :
    make_data_array 2 3 attributesLC false srcC4 1 = .ok outC4 ∧
    matchRows srcC4 ((objsOf srcC4).getD 0 0) ((timesOf srcC4).getD 1 0)
      ((channelPairs attributesLC).getD 9 (0, 0)).2 = [] ∧
    ((outC4.1.getD 0 []).getD 1 []).getD 9 0 = -9999 ∧
    matchRows srcC4 ((objsOf srcC4).getD 0 0) ((timesOf srcC4).getD 0 0)
      ((channelPairs attributesLC).getD 9 (0, 0)).2 = [⟨1, 0, 0, [10, 11, 12]⟩] ∧
    ((outC4.1.getD 0 []).getD 0 []).getD 9 0 = 10 := by
  refine ⟨by rfl, by decide, ?_, by decide, ?_⟩
  · exact (make_data_array_sentinel 2 3 attributesLC srcC4 1 outC4 (by decide)
      (by rfl) 0 1 9 (by decide) (by decide) (by decide)).1 (by decide)
  · have h2 := (make_data_array_sentinel 2 3 attributesLC srcC4 1 outC4 (by decide)
      (by rfl) 0 0 9 (by decide) (by decide) (by decide)).2
      ⟨1, 0, 0, [10, 11, 12]⟩ (by decide)
    rw [h2]
    decide

/-- Concrete input for the C9 witness: as `srcC4`, but object 1 has two
rows with the same key `(objectId 1, time 0, filter u)` and `apMag` values
`1` and `3`. -/
def srcC9 : List LongRow :=
  [⟨1, 0, 0, [1, 11, 12]⟩, ⟨1, 0, 0, [3, 13, 14]⟩, ⟨1, 1, 1, [20, 21, 22]⟩,
   ⟨1, 2, 2, [30, 31, 32]⟩, ⟨2, 0, 3, [40, 41, 42]⟩, ⟨2, 1, 4, [50, 51, 52]⟩]

/-- The tensor/labels pair returned on `srcC9`. -/
def outC9 : List (List (List ℚ)) × List ℚ :=
  (make_data_array 2 3 attributesLC false srcC9 1).toOption.getD ([], [])

/-- Witness for C9: the build completes despite the duplicated key, and the
duplicated cell holds the mean `(1 + 3) / 2 = 2`. -/
theorem make_data_array_duplicates_mean_witness :
    make_data_array 2 3 attributesLC false srcC9 1 = .ok outC9 ∧
    chanVals srcC9 ((objsOf srcC9).getD 0 0) ((timesOf srcC9).getD 0 0)
      ((channelPairs attributesLC).getD 9 (0, 0)) = [1, 3] ∧
    ((outC9.1.getD 0 []).getD 0 []).getD 9 0 = 2 := by
  have h := make_data_array_duplicates_mean 2 3 attributesLC srcC9 1 outC9
    (by decide) (by rfl) 0 0 9 (by decide) (by decide) (by decide) (by decide)
  have hcv : chanVals srcC9 ((objsOf srcC9).getD 0 0) ((timesOf srcC9).getD 0 0)
      ((channelPairs attributesLC).getD 9 (0, 0)) = [1, 3] := by decide
  refine ⟨by rfl, hcv, ?_⟩
  rw [h, hcv]
  norm_num [List.sum_cons, List.sum_nil]

/-! ## Claim C1: the column order after the second pivot

`pivot_table` sorts its result columns, so after the second pivot the
columns run through the `filter_attribute` names in *sorted* order (the
filter letter leads the name, so effectively filter-major in alphabetical
`g i r u z` order, attributes alphabetical within a filter), with the time
level ascending fastest — not through the declared
`timed_filtered_attributes` order (attribute-major, filters in `u g r i z`
order).  The code's own column-order assertion is commented out
(line 180), and no reindex to the declared order is performed. -/

theorem flatMap_assoc' {α β γ : Type _} (l : List α) (f : α → List β) (g : β → List γ) :
    (l.flatMap f).flatMap g = l.flatMap (fun x => (f x).flatMap g) := by
  induction l with
  | nil => simp
  | cons a l ih => simp [List.flatMap_cons, List.flatMap_append, ih]

theorem flatMap_congr' {α β : Type _} {l : List α} {f g : α → List β}
    (h : ∀ a ∈ l, f a = g a) : l.flatMap f = l.flatMap g := by
  induction l with
  | nil => simp
  | cons a l ih =>
    rw [List.flatMap_cons, List.flatMap_cons, h a (List.mem_cons_self a l),
      ih (fun x hx => h x (List.mem_cons_of_mem a hx))]

/-- Claim C1, counterexample: On a concrete table on which the
per-filter-column build succeeds, the column list of the wide per-object
table after the second pivot (`pivot2_columns`, the order in which
`make_data_array` lays out the cells it reshapes) differs from the declared
`timed_filtered_attributes` list: the build's first column is
`0-g_apMag` while the declared list starts with `0-u_apMag`. -/
theorem pivot2_columns_ne_declared_counterexample :
    (make_data_array 1 5 attributesLC false srcC7 1).isOk = true ∧
    pivot2_columns attributesLC (timesOf srcC7) ≠
      timed_filtered_attributes attributesLC 5 := by
  constructor
  · rfl
  · decide

/-- Claim C1, amended: When the observed time indices are `0, …, T-1` (as the
pipeline guarantees), the column list after the second pivot is the
`(name-sorted filter_attribute) × (ascending time)` product: a permutation
of the declared `timed_filtered_attributes` list — the channel multiset and
the per-channel time layout are as declared, and the order is deterministic
— but not the declared order itself. -/
theorem pivot2_columns_perm_declared (attrs : List String) (T : ℕ) :
    List.Perm (pivot2_columns attrs (List.range T))
      (timed_filtered_attributes attrs T) := by
  have hmap : pivot2_columns attrs (List.range T) =
      (channelPairs attrs).flatMap
        (fun c => (List.range T).map (fun t => toString t ++ "-" ++ chanName attrs c)) := by
    rw [pivot2_columns, pivot2_pairs, map_flatMap']
    simp only [List.map_map]
    rfl
  have heq : (allPairs attrs).flatMap
        (fun c => (List.range T).map (fun t => toString t ++ "-" ++ chanName attrs c)) =
      timed_filtered_attributes attrs T := by
    rw [timed_filtered_attributes, filtered_attributes, allPairs,
      flatMap_assoc', flatMap_assoc']
    rw [← flatMap_range_getD ""
      (fun x => (filterNames.map (fun f => f ++ "_" ++ x)).flatMap
        (fun fa => (List.range T).map (fun t => toString t ++ "-" ++ fa)))
      attrs]
    refine flatMap_congr' ?_
    intro a _
    rw [List.flatMap_map, List.flatMap_map]
    rw [show filterNames = (List.finRange 5).map filterName from rfl]
    rw [List.flatMap_map]
    rfl
  rw [hmap]
  exact (perm_flatMap_of_perm _ (perm_isortLe _ _)).trans (heq ▸ List.Perm.refl _)

/-! ## Claim C8: `set_additional_columns` and its effect on the inputs

Every operation in the loop body is in-place (column assignments,
`sort_values(..., inplace=True)`, `drop(..., inplace=True)`), so after the
call each argument DataFrame holds the returned augmented table — the model
documents this at `set_additional_columns_one`: the returned table *is* the
post-call state of the argument.  The claim that the inputs are left
unmodified is therefore false; what does hold is that the effect is exactly
the augmentation: same row count, columns `e`, `phi`, `time_index`,
`d_time` appended and `MJD`, `ccdVisitId` dropped. -/

theorem length_dtimeVals : ∀ ms : List ℚ, (dtimeVals ms).length = ms.length
  | [] => rfl
  | _ :: rest => by
    simp only [dtimeVals, List.length_cons, List.length_map, List.length_zip,
      List.length_cons]
    omega

/-- Lens table for the C8 counterexample. -/
def lensC8 : Table :=
  [[("objectId", 1), ("filter", 0), ("MJD", 5), ("ccdVisitId", 100),
    ("e1", 1), ("e2", 2)]]

/-- Non-lens table for the C8 counterexample. -/
def nonlensC8 : Table :=
  [[("objectId", 3), ("filter", 1), ("MJD", 7), ("ccdVisitId", 100),
    ("e1", 1), ("e2", 2)]]

/-- The tables returned by (and, the operations being in-place, left in the
arguments of) `set_additional_columns` on the C8 counterexample input. -/
def outC8 : Table × Table :=
  (set_additional_columns ephiEx 1 lensC8 nonlensC8).toOption.getD ([], [])

/-- Claim C8, counterexample: `set_additional_columns` succeeds on the input
pair, and the post-call state of the lens argument (equal to the returned
first table, every operation being in-place) differs from the raw input
table — its column list has changed — refuting the claim that the raw
input tables are left unmodified. -/
theorem set_additional_columns_mutates_counterexample :
    set_additional_columns ephiEx 1 lensC8 nonlensC8 = .ok outC8 ∧ outC8.1 ≠ lensC8 :=
  ⟨rfl, fun h =>
    absurd (congrArg (fun t => (t.headD []).map Prod.fst) h) (by decide)⟩

/-- Claim C8, amended: The side effect of `set_additional_columns` on each
input table is exactly the documented augmentation, nothing else: on
success the (in-place mutated, returned) table has the same row count as
the input, and each row's column list is the input column list with `e`,
`phi`, `time_index`, `d_time` appended and `MJD`, `ccdVisitId` dropped. -/
theorem set_additional_columns_one_effect (ephi : ℚ → ℚ → ℚ × ℚ) (NUM_TIMES : ℕ)
    (src out : Table) (cols : List String)
    (hcols : ∀ r ∈ src, r.map Prod.fst = cols) (hMJD : "MJD" ∈ cols)
    (he : "e" ∉ cols) (hphi : "phi" ∉ cols)
    (hti : "time_index" ∉ cols) (hdt : "d_time" ∉ cols)
    (h : set_additional_columns_one ephi NUM_TIMES src = .ok out) :
    out.length = src.length ∧
    ∀ r ∈ out, r.map Prod.fst =
      (cols ++ ["e", "phi", "time_index", "d_time"]).filter
        (fun c => !(c == "MJD" || c == "ccdVisitId")) := by
  unfold set_additional_columns_one at h
  split at h
  · exact absurd h (by simp)
  split at h
  · exact absurd h (by simp)
  rw [Except.ok.injEq] at h
  set s2 := rebaseMJD (addEphi ephi src) with hs2
  have hs2keys : ∀ r ∈ s2, r.map Prod.fst = cols ++ ["e", "phi"] := by
    intro r hr
    obtain ⟨r1, hr1, hr1e⟩ := List.mem_map.mp hr
    obtain ⟨r0, hr0, hr0e⟩ := List.mem_map.mp hr1
    have h0 : r0.map Prod.fst = cols := hcols r0 hr0
    have h1 : (assignCol r0 "e" (ephi (cellD r0 "e1") (cellD r0 "e2")).1).map
        Prod.fst = cols ++ ["e"] := by
      rw [keys_assignCol, h0, if_neg he]
    have h2 : r1.map Prod.fst = cols ++ ["e", "phi"] := by
      rw [← hr0e, keys_assignCol, h1, if_neg]
      · rw [List.append_assoc]
        rfl
      · intro hmem
        rcases List.mem_append.mp hmem with hc | hc
        · exact hphi hc
        · simp at hc
    rw [← hr1e, keys_assignCol, h2, if_pos (List.mem_append.mpr (Or.inl hMJD))]
  have ht3keys : ∀ p ∈ addTimeIndex NUM_TIMES s2,
      p.map Prod.fst = (cols ++ ["e", "phi"]) ++ ["time_index"] := by
    intro p hp
    obtain ⟨w, hw, hwe⟩ := List.mem_map.mp hp
    rw [← hwe, keys_assignCol, hs2keys w hw, if_neg]
    intro hmem
    rcases List.mem_append.mp hmem with hc | hc
    · exact hti hc
    · simp at hc
  have ht5keys : ∀ q ∈ addDtime (isortLe rowLe (addTimeIndex NUM_TIMES s2)),
      q.map Prod.fst = ((cols ++ ["e", "phi"]) ++ ["time_index"]) ++ ["d_time"] := by
    intro q hq
    obtain ⟨⟨p1, dv⟩, hp, hqe⟩ := List.mem_map.mp hq
    have hp1 : p1 ∈ addTimeIndex NUM_TIMES s2 :=
      (mem_isortLe rowLe _ _).mp (List.of_mem_zip hp).1
    rw [← hqe]
    show (assignCol p1 "d_time" dv).map Prod.fst = _
    rw [keys_assignCol, ht3keys p1 hp1, if_neg]
    intro hmem
    rcases List.mem_append.mp hmem with hc | hc
    · rcases List.mem_append.mp hc with hc' | hc'
      · exact hdt hc'
      · simp at hc'
    · simp at hc
  have hs2len : s2.length = src.length := by
    rw [hs2, rebaseMJD, addEphi, List.length_map, List.length_map]
  constructor
  · rw [← h, dropRawCols, List.length_map, addDtime, List.length_map,
      List.length_zip, length_dtimeVals, List.length_map, length_isortLe,
      addTimeIndex, List.length_map, hs2len]
    omega
  · intro r hr
    rw [← h] at hr
    obtain ⟨q, hq, hqe⟩ := List.mem_map.mp hr
    rw [← hqe, keys_filter_key q (fun c => !(c == "MJD" || c == "ccdVisitId")),
      ht5keys q hq]
    simp [List.append_assoc]

/-- The augmented table produced from the C8 lens table alone. -/
def outC8one : Table := (set_additional_columns_one ephiEx 1 lensC8).toOption.getD []

/-- Witness for C8 (amended): on the concrete lens table the derivation
succeeds, preserves the row count, and produces exactly the documented
column list. -/
theorem set_additional_columns_one_effect_witness :
    set_additional_columns_one ephiEx 1 lensC8 = .ok outC8one ∧
    outC8one.length = lensC8.length ∧
    (outC8one.getD 0 []).map Prod.fst =
      ((["objectId", "filter", "MJD", "ccdVisitId", "e1", "e2"] ++
        ["e", "phi", "time_index", "d_time"]).filter
          (fun c => !(c == "MJD" || c == "ccdVisitId"))) := by
  have h := set_additional_columns_one_effect ephiEx 1 lensC8 outC8one
    ["objectId", "filter", "MJD", "ccdVisitId", "e1", "e2"]
    (by decide) (by decide) (by decide) (by decide) (by decide) (by decide) rfl
  exact ⟨rfl, h.1, h.2 _ (getD_mem _ 0 [] (by rw [h.1]; decide))⟩

/-! ## Claim C6: the first chronological delta of an `(objectId, filter)` group

`d_time` is derived with a plain `shift(+1)` over the whole sorted table
(line 89), not a per-group shift: the first row of every group other than
the very first row of the table gets `max(0, MJD − previous group's last
MJD)`, which is nonzero whenever the new group starts later than the
previous group ended.  This contradicts the code's own comment
("time elapsed since last observation in each filter") and the spec. -/

/-- C6 failing input: object 1 observed once in filter `g` (stored as its
alphabetical rank 0) at `MJD 0` and once in filter `i` (rank 1) at `MJD 5`;
`NUM_TIMES = 2`. -/
def srcC6 : Table :=
  [[("objectId", 1), ("filter", 0), ("MJD", 0), ("ccdVisitId", 100),
    ("e1", 1), ("e2", 2)],
   [("objectId", 1), ("filter", 1), ("MJD", 5), ("ccdVisitId", 101),
    ("e1", 1), ("e2", 2)]]

/-- The augmented table produced from the C6 failing input. -/
def outC6 : Table := (set_additional_columns_one ephiEx 2 srcC6).toOption.getD []

/-- Claim C6: Evaluation at the failing input: the derivation succeeds, row 1
is the first (and only) chronological observation of the group
`(objectId 1, filter i)` — rows 0 and 1 carry different filters — yet its
`d_time` is `5` (the time elapsed since the *g*-band row of the previous
group), not `0` as the claim requires.  The `shift(+1)` crosses the group
boundary. -/
theorem d_time_first_of_group_eval :
    set_additional_columns_one ephiEx 2 srcC6 = .ok outC6 ∧
    cellD (outC6.getD 0 []) "filter" = 0 ∧
    cellD (outC6.getD 1 []) "filter" = 1 ∧
    cellD (outC6.getD 1 []) "d_time" = 5 ∧
    ¬ cellD (outC6.getD 1 []) "d_time" = 0 := by
  have hm0 : minMJD (addEphi ephiEx srcC6) = 0 := by decide
  have e1 : cellD (outC6.getD 1 []) "d_time" =
      max 0 ((5 - minMJD (addEphi ephiEx srcC6)) -
        (0 - minMJD (addEphi ephiEx srcC6))) := by rfl
  have h5 : cellD (outC6.getD 1 []) "d_time" = 5 := by
    rw [e1, hm0]
    norm_num
  exact ⟨rfl, by decide, by decide, h5, by rw [h5]; norm_num⟩

/-! ## Claim C5: `shuffle_data` shuffles rows and labels consistently -/

/-- Claim C5: `shuffle_data` applies the one permutation `p` (drawn from the
RNG seeded with the fixed `self.seed` in `combine_lens_nonlens`; the
embedding passes that draw explicitly, so equal seeds give equal `p` by
construction) to both the tensor's leading axis and the label vector:
whenever the labels agree with a labelling function of the objects before
the shuffle, they still do after it. -/
theorem shuffle_data_index_consistency (NUM_POSITIVES : ℕ) (p : List ℕ)
    (X : List (List (List ℚ))) (y : List ℚ) (label : List (List ℚ) → ℚ)
    (hX : X.length = 2 * NUM_POSITIVES) (hy : y.length = 2 * NUM_POSITIVES)
    (hp : p.length = 2 * NUM_POSITIVES) (hpmem : ∀ i ∈ p, i < 2 * NUM_POSITIVES)
    (hpair : ∀ i, i < 2 * NUM_POSITIVES → y.getD i 0 = label (X.getD i []))
    (j : ℕ) (hj : j < 2 * NUM_POSITIVES) :
    (shuffle_data p X y).2.getD j 0 = label ((shuffle_data p X y).1.getD j []) := by
  unfold shuffle_data
  have hjp : j < p.length := by rw [hp]; exact hj
  rw [getD_map_lt _ _ 0 p j hjp, getD_map_lt _ _ 0 p j hjp]
  exact hpair _ (hpmem _ (getD_mem p j 0 hjp))

/-- Witness for C5: two objects, labels 5 and 7, the swap permutation. -/
theorem shuffle_data_index_consistency_witness :
    (shuffle_data [1, 0] [[[1]], [[2]]] [5, 7]).2.getD 0 0 =
      (fun m => if m = [[(1 : ℚ)]] then (5 : ℚ) else 7)
        ((shuffle_data [1, 0] [[[1]], [[2]]] [5, 7]).1.getD 0 []) :=
  shuffle_data_index_consistency 1 [1, 0] [[[1]], [[2]]] [5, 7]
    (fun m => if m = [[(1 : ℚ)]] then (5 : ℚ) else 7)
    (by decide) (by decide) (by decide) (by decide) (by decide) 0 (by decide)

end DeepQSO
